import Mathlib

/-!
Verification of the V5.Native predicate-evaluation kernel (elfie-arriba).

The embedding below follows the two source files:
  * `V5/V5.Native/Operator.h`   — the generic `Where` scan template and the
    `CompareToVector` entry points;
  * `V5/V5.Native/IndexSetN.cpp` — `AndWhereGreaterThanInternal`, `CountInternal`
    and the managed wrapper `IndexSetN::AndWhereGreaterThan`.

Modelling conventions:
  * bytes are naturals below 256; byte loads apply `% 256`;
  * 64-bit bitmap words are naturals below `2 ^ 64`; the C complement `~r`
    of an `unsigned __int64` is `r ^^^ (2 ^ 64 - 1)`;
  * the column buffer `set` is a function `Nat → Nat` (index to byte) and the
    match vector is a function from word index to word, so that untouched
    words are observable;
  * an AVX lane compare (`_mm256_cmpgt_epi8` / `_mm256_cmpeq_epi8`) followed by
    `_mm256_movemask_epi8` sets result bit `j` exactly when the lane-`j`
    predicate holds, because the compare mask byte is all-ones or all-zeros;
    the embedding composes the two and keeps one `Bool` per lane;
  * `x & 63` is written through `land63`, and `i >> 6` through `>>> 6`,
    mirroring the source expressions.
-/

set_option maxRecDepth 40000

/-- The comparison operators of `Operator.h` (`CompareOperatorN`). -/
inductive CompareOperatorN : Type
  | Equals
  | NotEquals
  | LessThan
  | LessThanOrEqual
  | GreaterThan
  | GreaterThanOrEqual
deriving DecidableEq

/-- The boolean combinators of `Operator.h` (`BooleanOperatorN`). -/
inductive BooleanOperatorN : Type
  | And
  | AndNot
  | Or
deriving DecidableEq

/-- The signedness modes of `Operator.h` (`SigningN`). -/
inductive SigningN : Type
  | Unsigned
  | Signed
deriving DecidableEq

/-- Interpret the low byte of a natural as a signed 8-bit value in -128..127. -/
def toSigned (b : Nat) : Int :=
  if b % 256 < 128 then (b % 256 : Int) else (b % 256 : Int) - 256

/-- One lane of `_mm256_cmpgt_epi8` composed with its movemask bit: the lane
mask is all-ones exactly when the signed byte comparison `a > b` holds. -/
def cmpgtLane (a b : Nat) : Bool :=
  decide (toSigned a > toSigned b)

/-- One lane of `_mm256_cmpeq_epi8` composed with its movemask bit. -/
def cmpeqLane (a b : Nat) : Bool :=
  decide (a % 256 = b % 256)

/-- One lane of `_mm256_sub_epi8`: byte subtraction modulo 256. -/
def subLane (a b : Nat) : Nat :=
  (a % 256 + 256 - b % 256) % 256

/-- `x & 63`, as written in the source (`length & 63`, `i & 63`). -/
def land63 (n : Nat) : Nat := n &&& 63

/-- `_mm256_movemask_epi8` over the first `n` lanes of a compare mask whose
lane `j` is all-ones exactly when `f j` holds: bit `j` of the result is `f j`. -/
def movemaskAux (f : Nat → Bool) : Nat → Nat
  | 0 => 0
  | n + 1 => movemaskAux f n ||| (if f n then 1 <<< n else 0)

/-- `_mm256_movemask_epi8` over a full 32-lane register. -/
def movemask256 (f : Nat → Bool) : Nat := movemaskAux f 32

/-- The byte actually fed to the lane compare for a loaded column byte or for
the broadcast scalar: `Unsigned` mode subtracts the bias `0x80`
(`_mm256_sub_epi8` with `_mm256_set1_epi8(-128)`), `Signed` uses the raw byte. -/
def blockByte (sign : SigningN) (a : Nat) : Nat :=
  match sign with
  | .Unsigned => subLane a 128
  | .Signed => a % 256

/-- The lane compare selected by the `switch (cOp)` in `Where`: operators are
grouped in pairs, the second of each pair being realized by a post-inversion. -/
def laneBit (cOp : CompareOperatorN) (blockLane valueLane : Nat) : Bool :=
  match cOp with
  | .GreaterThan | .LessThanOrEqual => cmpgtLane blockLane valueLane
  | .LessThan | .GreaterThanOrEqual => cmpgtLane valueLane blockLane
  | .Equals | .NotEquals => cmpeqLane blockLane valueLane

/-- Whether `Where` applies `result = ~result` after packing the lane bits. -/
def postInvert : CompareOperatorN → Bool
  | .LessThanOrEqual | .GreaterThanOrEqual | .NotEquals => true
  | _ => false

/-- The packed 64-bit result word one iteration of the main loop of `Where`
computes for the 64 rows starting at `i0`: two 32-lane compares, two movemasks,
`result = matchBits2 << 32 | matchBits1`, then the conditional inversion. -/
def chunkWord (cOp : CompareOperatorN) (sign : SigningN) (set : Nat → Nat)
    (value i0 : Nat) : Nat :=
  let blockOfValue := blockByte sign value
  let matchBits1 := movemask256 fun j => laneBit cOp (blockByte sign (set (i0 + j))) blockOfValue
  let matchBits2 := movemask256 fun j => laneBit cOp (blockByte sign (set (i0 + 32 + j))) blockOfValue
  let result := matchBits2 <<< 32 ||| matchBits1
  if postInvert cOp then result ^^^ (2 ^ 64 - 1) else result

/-- The byte comparison the scalar tail loop of `Where` performs for row `i`.
The source compares the raw `unsigned __int8` values with C operators, which is
an unsigned comparison regardless of the template's signedness mode. -/
def tailPred (cOp : CompareOperatorN) (a v : Nat) : Bool :=
  match cOp with
  | .GreaterThan => decide (a > v)
  | .GreaterThanOrEqual => decide (a ≥ v)
  | .LessThan => decide (a < v)
  | .LessThanOrEqual => decide (a ≤ v)
  | .Equals => decide (a = v)
  | .NotEquals => decide (a ≠ v)

/-- The tail accumulation loop: starting from `result = 0`, for
`i = blockLen, blockLen + 1, ...` set `result |= 1 << (i & 63)` whenever the
row predicate holds. `tailAux p blockLen k` is the accumulator after the
first `k` tail rows. -/
def tailAux (p : Nat → Bool) (blockLen : Nat) : Nat → Nat
  | 0 => 0
  | k + 1 => tailAux p blockLen k ||| (if p (blockLen + k) then 1 <<< land63 (blockLen + k) else 0)

/-- The 64-bit word the tail loop of `Where` builds for the final
`length & 63` rows. -/
def tailWord (cOp : CompareOperatorN) (set : Nat → Nat) (value length : Nat) : Nat :=
  tailAux (fun i => tailPred cOp (set i) value) (length - land63 length) (land63 length)

/-- The `switch (bOp)` of `Where`: merge a result word into a bitmap word. -/
def combineWord (bOp : BooleanOperatorN) (b r : Nat) : Nat :=
  match bOp with
  | .And => b &&& r
  | .Or => b ||| r
  | .AndNot => b &&& (r ^^^ (2 ^ 64 - 1))

/-- Store `x` into word `w` of the match vector. -/
def updateWord (mv : Nat → Nat) (w x : Nat) : Nat → Nat :=
  fun w0 => if w0 = w then x else mv w0

/-- The main loop of `Where` after `c` iterations: iteration `c` handles rows
`64 * c .. 64 * c + 63` (`i = 64 * c`) and merges into word `i >> 6 = c`. -/
def WhereLoop (cOp : CompareOperatorN) (bOp : BooleanOperatorN) (sign : SigningN)
    (set : Nat → Nat) (value : Nat) (mv : Nat → Nat) : Nat → (Nat → Nat)
  | 0 => mv
  | c + 1 =>
    updateWord (WhereLoop cOp bOp sign set value mv c) c
      (combineWord bOp (WhereLoop cOp bOp sign set value mv c c)
        (chunkWord cOp sign set value (64 * c)))

/-- The `Where<cOp, bOp, sign>` template of `Operator.h`: the main loop runs
`blockLength / 64` iterations where `blockLength = length - (length & 63)`,
then, if `length & 63 > 0`, the tail loop leaves `i = length` and merges the
tail word into word `i >> 6 = length >> 6`. -/
def Where (cOp : CompareOperatorN) (bOp : BooleanOperatorN) (sign : SigningN)
    (set : Nat → Nat) (length value : Nat) (mv : Nat → Nat) : Nat → Nat :=
  if 0 < land63 length then
    updateWord (WhereLoop cOp bOp sign set value mv ((length - land63 length) / 64))
      (length >>> 6)
      (combineWord bOp
        (WhereLoop cOp bOp sign set value mv ((length - land63 length) / 64) (length >>> 6))
        (tailWord cOp set value length))
  else
    WhereLoop cOp bOp sign set value mv ((length - land63 length) / 64)

/-- The 64-row result word of one iteration of `AndWhereGreaterThanInternal`
(`IndexSetN.cpp`): bias both blocks and the value by `0x80`, signed
greater-than per lane, movemask, pack low then high. -/
def internalChunkWord (set : Nat → Nat) (value i0 : Nat) : Nat :=
  let blockOfValue := subLane value 128
  let matchBits1 := movemask256 fun j => cmpgtLane (subLane (set (i0 + j)) 128) blockOfValue
  let matchBits2 := movemask256 fun j => cmpgtLane (subLane (set (i0 + 32 + j)) 128) blockOfValue
  matchBits2 <<< 32 ||| matchBits1

/-- The main loop of `AndWhereGreaterThanInternal` after `c` iterations:
`matchVector[i >> 6] &= result`. -/
def internalLoop (set : Nat → Nat) (value : Nat) (mv : Nat → Nat) : Nat → (Nat → Nat)
  | 0 => mv
  | c + 1 =>
    updateWord (internalLoop set value mv c) c
      (internalLoop set value mv c c &&& internalChunkWord set value (64 * c))

/-- `AndWhereGreaterThanInternal` of `IndexSetN.cpp`: the dedicated unsigned
greater-than And-combined scan; the tail builds `last` from `set[i] > value`
and performs `matchVector[length >> 6] &= last`. -/
def AndWhereGreaterThanInternal (set : Nat → Nat) (length value : Nat)
    (mv : Nat → Nat) : Nat → Nat :=
  if 0 < land63 length then
    updateWord (internalLoop set value mv ((length - land63 length) / 64)) (length >>> 6)
      (internalLoop set value mv ((length - land63 length) / 64) (length >>> 6) &&&
        tailAux (fun i => decide (set i > value)) (length - land63 length) (land63 length))
  else
    internalLoop set value mv ((length - land63 length) / 64)

/-- Truncation of a non-negative value to a 32-bit signed `int`: the result of
casting to `int`, or of an `int * int` multiplication whose mathematical value
is non-negative, under two's-complement wrap-around. -/
def toInt32 (n : Nat) : Int :=
  if n % 2 ^ 32 < 2 ^ 31 then ((n % 2 ^ 32 : Nat) : Int)
  else ((n % 2 ^ 32 : Nat) : Int) - 2 ^ 32

/-- The managed wrapper `IndexSetN::AndWhereGreaterThan`: if the guard
`matchVector->Length * 64 < set->Length` holds, return with the bitmap
untouched, otherwise run the native scan over the pinned arrays. Both array
lengths are 32-bit `int`s and the product is computed in `int` arithmetic, so
it wraps for word counts of `2 ^ 25` or more (modeled by `toInt32`); the
comparison is a signed one against the (non-negative, in-range) `set->Length`. -/
def IndexSetN.AndWhereGreaterThan (set : List Nat) (value : Nat)
    (matchVector : List Nat) : List Nat :=
  if toInt32 (matchVector.length * 64) < (set.length : Int) then matchVector
  else
    (List.range matchVector.length).map
      (AndWhereGreaterThanInternal (fun i => set.getD i 0) set.length value
        (fun w => matchVector.getD w 0))

/-- `_mm_popcnt_u64` restricted to the first `n` of the 64 operand bits. -/
def popcntAux (x : Nat) : Nat → Nat
  | 0 => 0
  | n + 1 => popcntAux x n + (x >>> n) % 2

/-- `_mm_popcnt_u64`: the number of set bits among the 64 bits of the operand. -/
def popcnt_u64 (x : Nat) : Nat := popcntAux x 64

/-- The accumulation loop of `CountInternal` after `n` iterations: the
`__int64` accumulator `count += _mm_popcnt_u64(matchVector[i])`. The word
count is a C `int`, so at most `2 ^ 31 - 1` words are summed and the signed
64-bit accumulator (at most `2 ^ 37`) cannot overflow; plain `Nat` addition
is therefore exact here. -/
def CountLoop (mv : Nat → Nat) : Nat → Nat
  | 0 => 0
  | n + 1 => CountLoop mv n + popcnt_u64 (mv n)

/-- `CountInternal` of `IndexSetN.cpp`: sum the population counts of the first
`length` words, then return the accumulator cast to `int` (`toInt32`). -/
def CountInternal (mv : Nat → Nat) (length : Nat) : Int :=
  toInt32 (CountLoop mv length)

/-- `CompareToVector::WhereGreaterThan`: always the
`Where<GreaterThan, And, Unsigned>` instantiation; `positive` and `and`
(here `andFlag`) are accepted and ignored. -/
def CompareToVector.WhereGreaterThan (positive andFlag : Bool) (set : Nat → Nat)
    (length value : Nat) (mv : Nat → Nat) : Nat → Nat :=
  Where .GreaterThan .And .Unsigned set length value mv

/-- `CompareToVector::WhereLessThan`: always `Where<LessThan, And, Unsigned>`. -/
def CompareToVector.WhereLessThan (positive andFlag : Bool) (set : Nat → Nat)
    (length value : Nat) (mv : Nat → Nat) : Nat → Nat :=
  Where .LessThan .And .Unsigned set length value mv

/-- `CompareToVector::WhereEquals`: always `Where<Equals, And, Unsigned>`. -/
def CompareToVector.WhereEquals (positive andFlag : Bool) (set : Nat → Nat)
    (length value : Nat) (mv : Nat → Nat) : Nat → Nat :=
  Where .Equals .And .Unsigned set length value mv

/-- Modelled from the spec: the naive scalar comparison of a column byte
against the scalar value under the chosen signedness interpretation
(spec section 8, operator correctness). This is the specification side that
the kernel results are compared against. -/
def specNaiveMatch (cOp : CompareOperatorN) (sign : SigningN) (a v : Nat) : Bool :=
  match sign with
  | .Unsigned =>
    match cOp with
    | .GreaterThan => decide (a > v)
    | .GreaterThanOrEqual => decide (a ≥ v)
    | .LessThan => decide (a < v)
    | .LessThanOrEqual => decide (a ≤ v)
    | .Equals => decide (a = v)
    | .NotEquals => decide (a ≠ v)
  | .Signed =>
    match cOp with
    | .GreaterThan => decide (toSigned a > toSigned v)
    | .GreaterThanOrEqual => decide (toSigned a ≥ toSigned v)
    | .LessThan => decide (toSigned a < toSigned v)
    | .LessThanOrEqual => decide (toSigned a ≤ toSigned v)
    | .Equals => decide (toSigned a = toSigned v)
    | .NotEquals => decide (toSigned a ≠ toSigned v)

/-- The per-row bit of the vectorized path: the lane bit, then the
conditional post-inversion. -/
def vecRowBit (cOp : CompareOperatorN) (sign : SigningN) (a v : Nat) : Bool :=
  let m := laneBit cOp (blockByte sign a) (blockByte sign v)
  if postInvert cOp then !m else m

/-! ### Arithmetic bridges for the source's bit tricks -/

/-- `x & 63` is `x % 64`. -/
theorem land63_eq_mod (n : Nat) : land63 n = n % 64 := by
  have h := Nat.and_pow_two_sub_one_eq_mod n 6
  simpa using h

/-- `x >> 6` is `x / 64`. -/
theorem shiftRight6_eq (n : Nat) : n >>> 6 = n / 64 := by
  have h := Nat.shiftRight_eq_div_pow n 6
  simpa using h

/-! ### Bit-level characterization of the packed result words -/

theorem testBit_movemaskAux (f : Nat → Bool) (n i : Nat) :
    Nat.testBit (movemaskAux f n) i = (decide (i < n) && f i) := by
  induction n with
  | zero => simp [movemaskAux]
  | succ n ih =>
    unfold movemaskAux
    rw [Nat.testBit_or, ih]
    have hbit : Nat.testBit (if f n then 1 <<< n else 0) i = (decide (n = i) && f n) := by
      cases hf : f n
      · simp
      · simp [Nat.one_shiftLeft, Nat.testBit_two_pow]
    rw [hbit]
    rcases Nat.lt_trichotomy i n with h | h | h
    · rw [decide_eq_true h, decide_eq_true (by omega : i < n + 1),
        decide_eq_false (by omega : ¬ n = i)]
      simp
    · subst h
      rw [decide_eq_false (by omega : ¬ i < i), decide_eq_true (by omega : i < i + 1),
        decide_eq_true rfl]
      simp
    · rw [decide_eq_false (by omega : ¬ i < n), decide_eq_false (by omega : ¬ i < n + 1),
        decide_eq_false (by omega : ¬ n = i)]
      simp

theorem testBit_chunkWord (cOp : CompareOperatorN) (sign : SigningN) (set : Nat → Nat)
    (value i0 j : Nat) (hj : j < 64) :
    Nat.testBit (chunkWord cOp sign set value i0) j
      = vecRowBit cOp sign (set (i0 + j)) value := by
  have hpack : ∀ g1 g2 : Nat → Bool,
      Nat.testBit (movemask256 g2 <<< 32 ||| movemask256 g1) j
        = if j < 32 then g1 j else g2 (j - 32) := by
    intro g1 g2
    rw [Nat.testBit_or, Nat.testBit_shiftLeft]
    unfold movemask256
    rw [testBit_movemaskAux, testBit_movemaskAux]
    by_cases h32 : j < 32
    · simp [h32, (by omega : ¬ j ≥ 32)]
    · simp [h32, (by omega : j ≥ 32), (by omega : j - 32 < 32)]
  unfold chunkWord vecRowBit
  cases hpi : postInvert cOp
  · simp only [hpi, if_false, Bool.false_eq_true]
    rw [hpack]
    by_cases h32 : j < 32
    · simp [h32]
    · simp only [h32, if_false]
      rw [(by omega : i0 + 32 + (j - 32) = i0 + j)]
  · simp only [hpi, if_true]
    rw [Nat.testBit_xor, Nat.testBit_two_pow_sub_one, decide_eq_true hj, hpack]
    by_cases h32 : j < 32
    · simp [h32]
    · simp only [h32, if_false]
      rw [(by omega : i0 + 32 + (j - 32) = i0 + j)]
      simp

theorem testBit_tailAux (p : Nat → Bool) (blockLen : Nat)
    (hb : blockLen % 64 = 0) (t : Nat) (ht : t ≤ 64) (j : Nat) :
    Nat.testBit (tailAux p blockLen t) j = (decide (j < t) && p (blockLen + j)) := by
  induction t with
  | zero => simp [tailAux]
  | succ t ih =>
    unfold tailAux
    rw [Nat.testBit_or, ih (by omega)]
    have hpos : land63 (blockLen + t) = t := by
      rw [land63_eq_mod]; omega
    rw [hpos]
    have hbit : Nat.testBit (if p (blockLen + t) then 1 <<< t else 0) j
        = (decide (t = j) && p (blockLen + t)) := by
      cases hf : p (blockLen + t)
      · simp
      · simp [Nat.one_shiftLeft, Nat.testBit_two_pow]
    rw [hbit]
    rcases Nat.lt_trichotomy j t with h | h | h
    · rw [decide_eq_true h, decide_eq_true (by omega : j < t + 1),
        decide_eq_false (by omega : ¬ t = j)]
      simp
    · subst h
      rw [decide_eq_false (by omega : ¬ j < j), decide_eq_true (by omega : j < j + 1),
        decide_eq_true rfl]
      simp
    · rw [decide_eq_false (by omega : ¬ j < t), decide_eq_false (by omega : ¬ j < t + 1),
        decide_eq_false (by omega : ¬ t = j)]
      simp

/-! ### Word-level characterization of the `Where` loops -/

theorem updateWord_self (mv : Nat → Nat) (w x : Nat) : updateWord mv w x w = x :=
  if_pos rfl

theorem updateWord_ne (mv : Nat → Nat) (w x w0 : Nat) (h : w0 ≠ w) :
    updateWord mv w x w0 = mv w0 :=
  if_neg h

theorem WhereLoop_ge (cOp : CompareOperatorN) (bOp : BooleanOperatorN) (sign : SigningN)
    (set : Nat → Nat) (value : Nat) (mv : Nat → Nat) (c w : Nat) (h : c ≤ w) :
    WhereLoop cOp bOp sign set value mv c w = mv w := by
  induction c with
  | zero => rfl
  | succ c ih =>
    unfold WhereLoop
    rw [updateWord_ne _ _ _ _ (by omega : w ≠ c)]
    exact ih (by omega)

theorem WhereLoop_lt (cOp : CompareOperatorN) (bOp : BooleanOperatorN) (sign : SigningN)
    (set : Nat → Nat) (value : Nat) (mv : Nat → Nat) (c w : Nat) (h : w < c) :
    WhereLoop cOp bOp sign set value mv c w
      = combineWord bOp (mv w) (chunkWord cOp sign set value (64 * w)) := by
  induction c with
  | zero => omega
  | succ c ih =>
    unfold WhereLoop
    by_cases hw : w = c
    · subst hw
      rw [updateWord_self, WhereLoop_ge cOp bOp sign set value mv w w (by omega)]
    · rw [updateWord_ne _ _ _ _ hw]
      exact ih (by omega)

theorem Where_chunkEq (cOp : CompareOperatorN) (bOp : BooleanOperatorN) (sign : SigningN)
    (set : Nat → Nat) (length value : Nat) (mv : Nat → Nat) (w : Nat)
    (hw : w < length / 64) :
    Where cOp bOp sign set length value mv w
      = combineWord bOp (mv w) (chunkWord cOp sign set value (64 * w)) := by
  have hchunks : (length - land63 length) / 64 = length / 64 := by
    rw [land63_eq_mod]; omega
  simp only [Where, shiftRight6_eq, hchunks]
  by_cases htail : 0 < land63 length
  · rw [if_pos htail, updateWord_ne _ _ _ _ (by omega : w ≠ length / 64)]
    exact WhereLoop_lt cOp bOp sign set value mv (length / 64) w hw
  · rw [if_neg htail]
    exact WhereLoop_lt cOp bOp sign set value mv (length / 64) w hw

theorem Where_tailEq (cOp : CompareOperatorN) (bOp : BooleanOperatorN) (sign : SigningN)
    (set : Nat → Nat) (length value : Nat) (mv : Nat → Nat) (h : 0 < length % 64) :
    Where cOp bOp sign set length value mv (length / 64)
      = combineWord bOp (mv (length / 64)) (tailWord cOp set value length) := by
  have htail : 0 < land63 length := by rw [land63_eq_mod]; omega
  have hchunks : (length - land63 length) / 64 = length / 64 := by
    rw [land63_eq_mod]; omega
  simp only [Where, shiftRight6_eq, hchunks]
  rw [if_pos htail, updateWord_self,
    WhereLoop_ge cOp bOp sign set value mv (length / 64) (length / 64) (by omega)]

theorem Where_frame (cOp : CompareOperatorN) (bOp : BooleanOperatorN) (sign : SigningN)
    (set : Nat → Nat) (length value : Nat) (mv : Nat → Nat) (w : Nat)
    (hw : (length + 63) / 64 ≤ w) :
    Where cOp bOp sign set length value mv w = mv w := by
  have hchunks : (length - land63 length) / 64 = length / 64 := by
    rw [land63_eq_mod]; omega
  simp only [Where, shiftRight6_eq, hchunks]
  by_cases htail : 0 < land63 length
  · have hmod : 0 < length % 64 := by rw [land63_eq_mod] at htail; omega
    rw [if_pos htail, updateWord_ne _ _ _ _ (by omega : w ≠ length / 64)]
    exact WhereLoop_ge cOp bOp sign set value mv (length / 64) w (by omega)
  · rw [if_neg htail]
    exact WhereLoop_ge cOp bOp sign set value mv (length / 64) w (by omega)

/-! ### Per-row characterization of an Or-combine into an all-zero bitmap -/

theorem Where_or_zero_vecBit (cOp : CompareOperatorN) (sign : SigningN) (set : Nat → Nat)
    (length value i : Nat) (hi : i < length - length % 64) :
    Nat.testBit (Where cOp .Or sign set length value (fun _ => 0) (i / 64)) (i % 64)
      = vecRowBit cOp sign (set i) value := by
  have hw : i / 64 < length / 64 := by omega
  rw [Where_chunkEq cOp .Or sign set length value (fun _ => 0) (i / 64) hw]
  show Nat.testBit (0 ||| chunkWord cOp sign set value (64 * (i / 64))) (i % 64) = _
  rw [Nat.zero_or,
    testBit_chunkWord cOp sign set value (64 * (i / 64)) (i % 64) (by omega),
    Nat.div_add_mod i 64]

theorem Where_or_zero_tailBit (cOp : CompareOperatorN) (sign : SigningN) (set : Nat → Nat)
    (length value i : Nat) (h1 : length - length % 64 ≤ i) (h2 : i < length) :
    Nat.testBit (Where cOp .Or sign set length value (fun _ => 0) (i / 64)) (i % 64)
      = tailPred cOp (set i) value := by
  have hmod : 0 < length % 64 := by omega
  have hidx : i / 64 = length / 64 := by omega
  rw [hidx, Where_tailEq cOp .Or sign set length value (fun _ => 0) hmod]
  show Nat.testBit (0 ||| tailWord cOp set value length) (i % 64) = _
  rw [Nat.zero_or]
  unfold tailWord
  rw [testBit_tailAux _ _ (by rw [land63_eq_mod]; omega) _ (by rw [land63_eq_mod]; omega) _,
    land63_eq_mod]
  rw [(by omega : length - length % 64 + i % 64 = i),
    decide_eq_true (by omega : i % 64 < length % 64), Bool.true_and]

/-! ### Lane correctness: the bias trick and the operator realizations -/

theorem toSigned_subLane_128 (a : Nat) (ha : a < 256) :
    toSigned (subLane a 128) = (a : Int) - 128 := by
  unfold toSigned subLane
  split <;> omega

theorem toSigned_inj (a v : Nat) (ha : a < 256) (hv : v < 256) :
    toSigned a = toSigned v ↔ a = v := by
  unfold toSigned
  constructor
  · intro h
    split_ifs at h <;> omega
  · intro h
    rw [h]

theorem cmpgtLane_sub128 (a v : Nat) (ha : a < 256) (hv : v < 256) :
    cmpgtLane (subLane a 128) (subLane v 128) = decide (v < a) := by
  unfold cmpgtLane
  rw [toSigned_subLane_128 a ha, toSigned_subLane_128 v hv]
  exact decide_eq_decide.mpr (by omega)

theorem cmpeqLane_sub128 (a v : Nat) : cmpeqLane (subLane a 128) (subLane v 128)
    = decide (a % 256 = v % 256) := by
  unfold cmpeqLane subLane
  exact decide_eq_decide.mpr (by omega)

theorem cmpeqLane_mod (a v : Nat) : cmpeqLane (a % 256) (v % 256)
    = decide (a % 256 = v % 256) := by
  unfold cmpeqLane
  exact decide_eq_decide.mpr (by omega)

/-- The vectorized path realizes, per byte lane, exactly the naive comparison
under the chosen signedness interpretation. -/
theorem vecRowBit_correct (cOp : CompareOperatorN) (sign : SigningN) (a v : Nat)
    (ha : a < 256) (hv : v < 256) :
    vecRowBit cOp sign a v = specNaiveMatch cOp sign a v := by
  have hma : a % 256 = a := Nat.mod_eq_of_lt ha
  have hmv : v % 256 = v := Nat.mod_eq_of_lt hv
  cases sign with
  | Unsigned =>
    cases cOp with
    | Equals =>
      show cmpeqLane (subLane a 128) (subLane v 128) = decide (a = v)
      rw [cmpeqLane_sub128, hma, hmv]
    | NotEquals =>
      show (!cmpeqLane (subLane a 128) (subLane v 128)) = decide (¬ a = v)
      rw [cmpeqLane_sub128, hma, hmv, decide_not]
    | LessThan =>
      show cmpgtLane (subLane v 128) (subLane a 128) = decide (a < v)
      exact cmpgtLane_sub128 v a hv ha
    | LessThanOrEqual =>
      show (!cmpgtLane (subLane a 128) (subLane v 128)) = decide (a ≤ v)
      rw [cmpgtLane_sub128 a v ha hv, ← decide_not]
      exact decide_eq_decide.mpr (by omega)
    | GreaterThan =>
      show cmpgtLane (subLane a 128) (subLane v 128) = decide (v < a)
      exact cmpgtLane_sub128 a v ha hv
    | GreaterThanOrEqual =>
      show (!cmpgtLane (subLane v 128) (subLane a 128)) = decide (v ≤ a)
      rw [cmpgtLane_sub128 v a hv ha, ← decide_not]
      exact decide_eq_decide.mpr (by omega)
  | Signed =>
    cases cOp with
    | Equals =>
      show cmpeqLane (a % 256) (v % 256) = decide (toSigned a = toSigned v)
      rw [cmpeqLane_mod, hma, hmv]
      exact decide_eq_decide.mpr (toSigned_inj a v ha hv).symm
    | NotEquals =>
      show (!cmpeqLane (a % 256) (v % 256)) = decide (¬ toSigned a = toSigned v)
      rw [cmpeqLane_mod, hma, hmv, ← decide_not]
      exact decide_eq_decide.mpr (not_congr (toSigned_inj a v ha hv).symm)
    | LessThan =>
      show cmpgtLane (v % 256) (a % 256) = decide (toSigned a < toSigned v)
      rw [hma, hmv]
      exact decide_eq_decide.mpr (by omega)
    | LessThanOrEqual =>
      show (!cmpgtLane (a % 256) (v % 256)) = decide (toSigned a ≤ toSigned v)
      rw [hma, hmv]
      show (!decide (toSigned v < toSigned a)) = _
      rw [← decide_not]
      exact decide_eq_decide.mpr (by omega)
    | GreaterThan =>
      show cmpgtLane (a % 256) (v % 256) = decide (toSigned v < toSigned a)
      rw [hma, hmv]
      exact decide_eq_decide.mpr (by omega)
    | GreaterThanOrEqual =>
      show (!cmpgtLane (v % 256) (a % 256)) = decide (toSigned v ≤ toSigned a)
      rw [hma, hmv]
      show (!decide (toSigned a < toSigned v)) = _
      rw [← decide_not]
      exact decide_eq_decide.mpr (by omega)

/-- The scalar tail path computes, per row, the naive comparison under the
Unsigned interpretation, independently of the template's signedness mode. -/
theorem tailPred_eq_specUnsigned (cOp : CompareOperatorN) (a v : Nat) :
    tailPred cOp a v = specNaiveMatch cOp .Unsigned a v := by
  cases cOp <;> rfl

/-! ### Complement relations between paired operators -/

theorem vecRowBit_le_not_gt (sign : SigningN) (a v : Nat) :
    vecRowBit .LessThanOrEqual sign a v = !vecRowBit .GreaterThan sign a v := rfl

theorem vecRowBit_ge_not_lt (sign : SigningN) (a v : Nat) :
    vecRowBit .GreaterThanOrEqual sign a v = !vecRowBit .LessThan sign a v := rfl

theorem vecRowBit_ne_not_eq (sign : SigningN) (a v : Nat) :
    vecRowBit .NotEquals sign a v = !vecRowBit .Equals sign a v := rfl

theorem tailPred_le_not_gt (a v : Nat) :
    tailPred .LessThanOrEqual a v = !tailPred .GreaterThan a v := by
  show decide (a ≤ v) = !decide (v < a)
  rw [← decide_not]
  exact decide_eq_decide.mpr (by omega)

theorem tailPred_ge_not_lt (a v : Nat) :
    tailPred .GreaterThanOrEqual a v = !tailPred .LessThan a v := by
  show decide (v ≤ a) = !decide (a < v)
  rw [← decide_not]
  exact decide_eq_decide.mpr (by omega)

theorem tailPred_ne_not_eq (a v : Nat) :
    tailPred .NotEquals a v = !tailPred .Equals a v := by
  show decide (¬ a = v) = !decide (a = v)
  rw [decide_not]

/-! ### The dedicated scan agrees with the generic template -/

theorem internalChunkWord_eq (set : Nat → Nat) (value i0 : Nat) :
    internalChunkWord set value i0 = chunkWord .GreaterThan .Unsigned set value i0 := rfl

theorem internalLoop_eq (set : Nat → Nat) (value : Nat) (mv : Nat → Nat) (c : Nat) :
    internalLoop set value mv c = WhereLoop .GreaterThan .And .Unsigned set value mv c := by
  induction c with
  | zero => rfl
  | succ c ih =>
    unfold internalLoop WhereLoop
    rw [ih]
    rfl

theorem internal_eq_whereGTAU (set : Nat → Nat) (length value : Nat) (mv : Nat → Nat) :
    AndWhereGreaterThanInternal set length value mv
      = Where .GreaterThan .And .Unsigned set length value mv := by
  unfold AndWhereGreaterThanInternal Where
  rw [internalLoop_eq]
  rfl

/-! ### Counting -/

theorem CountLoop_eq_sum (mv : Nat → Nat) (n : Nat) :
    CountLoop mv n = ∑ i in Finset.range n, popcnt_u64 (mv i) := by
  induction n with
  | zero => rfl
  | succ n ih =>
    unfold CountLoop
    rw [Finset.sum_range_succ, ih]

theorem toInt32_of_lt (n : Nat) (h : n < 2 ^ 31) : toInt32 n = (n : Int) := by
  unfold toInt32
  rw [Nat.mod_eq_of_lt (by omega : n < 2 ^ 32)]
  rw [if_pos h]

/-! ### Remaining shared helpers -/

theorem getD_map_range (f : Nat → Nat) (n w : Nat) (hw : w < n) :
    ((List.range n).map f).getD w 0 = f w := by
  rw [List.getD_eq_getElem?_getD, List.getElem?_map, List.getElem?_range hw]
  rfl

theorem chunkWord_le_not_gt (sign : SigningN) (set : Nat → Nat) (value i0 : Nat) :
    chunkWord .LessThanOrEqual sign set value i0
      = chunkWord .GreaterThan sign set value i0 ^^^ (2 ^ 64 - 1) := rfl

theorem chunkWord_ge_not_lt (sign : SigningN) (set : Nat → Nat) (value i0 : Nat) :
    chunkWord .GreaterThanOrEqual sign set value i0
      = chunkWord .LessThan sign set value i0 ^^^ (2 ^ 64 - 1) := rfl

theorem chunkWord_ne_not_eq (sign : SigningN) (set : Nat → Nat) (value i0 : Nat) :
    chunkWord .NotEquals sign set value i0
      = chunkWord .Equals sign set value i0 ^^^ (2 ^ 64 - 1) := rfl

/-- Per-row complement of two paired operators, for a scan Or-combined into an
all-zero bitmap. -/
theorem where_pair_bit (cOpA cOpB : CompareOperatorN) (sign : SigningN) (set : Nat → Nat)
    (length value : Nat)
    (hvec : ∀ a v, vecRowBit cOpB sign a v = !vecRowBit cOpA sign a v)
    (htl : ∀ a v, tailPred cOpB a v = !tailPred cOpA a v)
    (i : Nat) (hi : i < length) :
    Nat.testBit (Where cOpA .Or sign set length value (fun _ => 0) (i / 64) ^^^ (2 ^ 64 - 1))
        (i % 64)
      = Nat.testBit (Where cOpB .Or sign set length value (fun _ => 0) (i / 64)) (i % 64) := by
  rw [Nat.testBit_xor, Nat.testBit_two_pow_sub_one,
    decide_eq_true (by omega : i % 64 < 64), Bool.xor_true]
  by_cases hblk : i < length - length % 64
  · rw [Where_or_zero_vecBit cOpA sign set length value i hblk,
      Where_or_zero_vecBit cOpB sign set length value i hblk, hvec]
  · rw [Where_or_zero_tailBit cOpA sign set length value i (by omega) hi,
      Where_or_zero_tailBit cOpB sign set length value i (by omega) hi, htl]

/-- Word-level complement of two paired operators on full-chunk words. -/
theorem where_pair_word (cOpA cOpB : CompareOperatorN) (sign : SigningN) (set : Nat → Nat)
    (length value : Nat)
    (hch : ∀ i0, chunkWord cOpB sign set value i0
      = chunkWord cOpA sign set value i0 ^^^ (2 ^ 64 - 1))
    (w : Nat) (hw : w < length / 64) :
    Where cOpA .Or sign set length value (fun _ => 0) w ^^^ (2 ^ 64 - 1)
      = Where cOpB .Or sign set length value (fun _ => 0) w := by
  rw [Where_chunkEq cOpA .Or sign set length value (fun _ => 0) w hw,
    Where_chunkEq cOpB .Or sign set length value (fun _ => 0) w hw]
  show (0 ||| chunkWord cOpA sign set value (64 * w)) ^^^ (2 ^ 64 - 1)
    = 0 ||| chunkWord cOpB sign set value (64 * w)
  rw [Nat.zero_or, Nat.zero_or]
  exact (hch (64 * w)).symm

/-! ## Claims -/

/-- C1 (counterexample to the claim as stated): for the Signed mode, a buffer
of length 65 (at least 64) and the row 64 handled by the scalar tail, the
`Where` scan's match bit differs from the naive scalar comparison under the
Signed interpretation: the tail compares the raw bytes as unsigned. -/
theorem claim_C1_cex :
    Nat.testBit (Where .GreaterThan .Or .Signed (fun _ => 128) 65 1 (fun _ => 0) (64 / 64))
        (64 % 64)
      ≠ specNaiveMatch .GreaterThan .Signed ((fun _ => (128 : Nat)) 64) 1 := by
  decide

/-- C1 (amended): for every column buffer of bytes, every scalar byte, each
of the six comparison operators and both signedness modes, the `Where` scan
produces, for every row handled by the vectorized main loop
(`i < rowCount - rowCount mod 64`), the same match bit as a naive scalar
comparison of byte `i` against the scalar under that signedness
interpretation, observed by Or-combining into an all-zero bitmap. -/
theorem claim_C1_amended (cOp : CompareOperatorN) (sign : SigningN) (set : Nat → Nat)
    (length value : Nat) (hset : ∀ i, set i < 256) (hv : value < 256) (i : Nat)
    (hi : i < length - length % 64) :
    Nat.testBit (Where cOp .Or sign set length value (fun _ => 0) (i / 64)) (i % 64)
      = specNaiveMatch cOp sign (set i) value := by
  rw [Where_or_zero_vecBit cOp sign set length value i hi]
  exact vecRowBit_correct cOp sign (set i) value (hset i) hv

/-- C1 witness: the amended claim applied at a concrete input. -/
theorem claim_C1_witness :
    Nat.testBit (Where .GreaterThan .Or .Unsigned (fun _ => 200) 64 10 (fun _ => 0) (11 / 64))
        (11 % 64) = true
    ∧ specNaiveMatch .GreaterThan .Unsigned 200 10 = true :=
  ⟨(claim_C1_amended .GreaterThan .Unsigned (fun _ => 200) 64 10
      (fun _ => (by decide : (200 : Nat) < 256))
      (by decide) 11 (by decide)).trans (by decide), by decide⟩

/-- C2 (code bug evidence): with length 1 (tail-only), the Signed GreaterThan
scan sets the bit for byte 0x80 against scalar 1 because the tail compares
the bytes as unsigned (128 > 1), while the vector path on the same data with
the length rounded up to 64 leaves the bit clear, matching the naive Signed
comparison (-128 > 1 is false). The tail ignores the signedness mode. -/
theorem claim_C2_bug :
    Where .GreaterThan .Or .Signed (fun _ => 128) 1 1 (fun _ => 0) 0 = 1
    ∧ Where .GreaterThan .Or .Signed (fun _ => 128) 64 1 (fun _ => 0) 0 = 0
    ∧ specNaiveMatch .GreaterThan .Signed 128 1 = false := by
  exact ⟨by decide, by decide, by decide⟩

/-- C3: for every bitmap word of prior value B and computed result word R —
`chunkWord` for each full 64-row chunk, `tailWord` for the final partial
chunk — the scan stores exactly B AND R, B OR R, and B AND NOT R for the
combinators And, Or and AndNot respectively. -/
theorem claim_C3 (cOp : CompareOperatorN) (sign : SigningN) (set : Nat → Nat)
    (length value : Nat) (mv : Nat → Nat) :
    (∀ w, w < length / 64 →
      Where cOp .And sign set length value mv w
          = mv w &&& chunkWord cOp sign set value (64 * w)
        ∧ Where cOp .Or sign set length value mv w
          = mv w ||| chunkWord cOp sign set value (64 * w)
        ∧ Where cOp .AndNot sign set length value mv w
          = mv w &&& (chunkWord cOp sign set value (64 * w) ^^^ (2 ^ 64 - 1)))
    ∧ (0 < length % 64 →
      Where cOp .And sign set length value mv (length / 64)
          = mv (length / 64) &&& tailWord cOp set value length
        ∧ Where cOp .Or sign set length value mv (length / 64)
          = mv (length / 64) ||| tailWord cOp set value length
        ∧ Where cOp .AndNot sign set length value mv (length / 64)
          = mv (length / 64) &&& (tailWord cOp set value length ^^^ (2 ^ 64 - 1))) := by
  constructor
  · intro w hw
    exact ⟨Where_chunkEq cOp .And sign set length value mv w hw,
      Where_chunkEq cOp .Or sign set length value mv w hw,
      Where_chunkEq cOp .AndNot sign set length value mv w hw⟩
  · intro h
    exact ⟨Where_tailEq cOp .And sign set length value mv h,
      Where_tailEq cOp .Or sign set length value mv h,
      Where_tailEq cOp .AndNot sign set length value mv h⟩

/-- C3 witness: a full chunk word and the tail word at concrete inputs. -/
theorem claim_C3_witness :
    Where .Equals .And .Unsigned (fun _ => 0) 65 0 (fun _ => 6) 0 = 6
    ∧ Where .Equals .Or .Unsigned (fun _ => 0) 65 0 (fun _ => 6) 1 = 7 := by
  have h := claim_C3 .Equals .Unsigned (fun _ => 0) 65 0 (fun _ => 6)
  exact ⟨((h.1 0 (by decide)).1).trans (by decide),
    ((h.2 (by decide)).2.1).trans (by decide)⟩

/-- C4 (code bug evidence): with a 2^25-word bitmap (a reachable 256 MB array)
and a one-byte column, the bitmap can hold one bit per input row — the word
count times 64 is 2^31, not less than the set length 1 — yet the wrapper
returns with every word unchanged instead of performing the scan, because the
guard's 32-bit `int` product wraps to -2^31, which compares below the set
length. The third conjunct shows the skipped scan would have changed word 0
of the all-ones bitmap to 1 (byte 7 > scalar 3 at the single row). -/
theorem claim_C4_bug :
    IndexSetN.AndWhereGreaterThan [7] 3 (List.replicate (2 ^ 25) (2 ^ 64 - 1))
        = List.replicate (2 ^ 25) (2 ^ 64 - 1)
    ∧ ¬ ((List.replicate (2 ^ 25) ((2 : Nat) ^ 64 - 1)).length * 64
        < ([7] : List Nat).length)
    ∧ AndWhereGreaterThanInternal (fun i => ([7] : List Nat).getD i 0)
        ([7] : List Nat).length 3 (fun _ => 2 ^ 64 - 1) 0 = 1 := by
  refine ⟨?_, ?_, by decide⟩
  · unfold IndexSetN.AndWhereGreaterThan
    rw [List.length_replicate]
    rw [if_pos (show toInt32 (2 ^ 25 * 64) < (([7] : List Nat).length : Int) by decide)]
  · rw [List.length_replicate]
    decide

/-- C5 (counterexample to the claim as stated): `CountInternal` returns the
accumulator cast to a 32-bit signed int, so for 2^25 all-ones words the true
bit count 2^31 is returned as -2^31, not as the sum of the per-word
population counts. -/
theorem claim_C5_cex :
    CountInternal (fun _ => 2 ^ 64 - 1) (2 ^ 25)
      ≠ ((∑ i in Finset.range (2 ^ 25), popcnt_u64 ((fun _ => 2 ^ 64 - 1) i) : Nat) : Int) := by
  have hpop : popcnt_u64 (2 ^ 64 - 1) = 64 := by decide
  have hsum : (∑ i in Finset.range (2 ^ 25), popcnt_u64 ((fun _ => 2 ^ 64 - 1) i) : Nat)
      = 2 ^ 31 := by
    simp only [hpop, Finset.sum_const, Finset.card_range, smul_eq_mul]
    norm_num
  have hcl : CountLoop (fun _ => 2 ^ 64 - 1) (2 ^ 25) = 2 ^ 31 := by
    rw [CountLoop_eq_sum, hsum]
  unfold CountInternal
  rw [hcl, hsum]
  decide

/-- C5 (amended): `Count` is pure and returns the sum over the first
`wordCount` words of the per-word population counts truncated to a 32-bit
signed int; whenever that sum is below 2^31 it returns the sum exactly. -/
theorem claim_C5_amended (mv : Nat → Nat) (n : Nat) :
    CountInternal mv n = toInt32 (∑ i in Finset.range n, popcnt_u64 (mv i))
    ∧ ((∑ i in Finset.range n, popcnt_u64 (mv i)) < 2 ^ 31 →
      CountInternal mv n = ((∑ i in Finset.range n, popcnt_u64 (mv i) : Nat) : Int)) := by
  constructor
  · unfold CountInternal
    rw [CountLoop_eq_sum]
  · intro h
    unfold CountInternal
    rw [CountLoop_eq_sum, toInt32_of_lt _ h]

/-- C5 witness: the amended claim applied at a concrete input. -/
theorem claim_C5_witness :
    CountInternal (fun _ => 5) 3
      = ((∑ i in Finset.range 3, popcnt_u64 ((fun _ => (5 : Nat)) i) : Nat) : Int) :=
  (claim_C5_amended (fun _ => 5) 3).2 (by decide)

/-- C6: subtracting the bias 0x80 from two bytes and comparing the results as
signed bytes yields the same ordering as comparing the bytes as unsigned, so
the Unsigned-mode bias preserves the unsigned order through the signed
hardware lane compare. -/
theorem claim_C6 (a b : Nat) (ha : a < 256) (hb : b < 256) :
    (toSigned (subLane a 128) > toSigned (subLane b 128) ↔ a > b)
    ∧ cmpgtLane (subLane a 128) (subLane b 128) = decide (a > b) := by
  constructor
  · rw [toSigned_subLane_128 a ha, toSigned_subLane_128 b hb]
    omega
  · exact cmpgtLane_sub128 a b ha hb

/-- C6 witness: the claim applied at a concrete pair of bytes. -/
theorem claim_C6_witness :
    (toSigned (subLane 200 128) > toSigned (subLane 100 128) ↔ 200 > 100)
    ∧ cmpgtLane (subLane 200 128) (subLane 100 128) = decide (200 > 100) :=
  claim_C6 200 100 (by decide) (by decide)

/-- C7 (counterexample to the claim as stated): for a row count of 1, the
bitwise inversion of the GreaterThan word sets every bit at positions of
rows that do not exist, while the LessThanOrEqual word leaves them clear, so
the inverted bitmaps are not equal word-for-word. -/
theorem claim_C7_cex :
    Where .GreaterThan .Or .Unsigned (fun _ => 0) 1 0 (fun _ => 0) 0 ^^^ (2 ^ 64 - 1)
      ≠ Where .LessThanOrEqual .Or .Unsigned (fun _ => 0) 1 0 (fun _ => 0) 0 := by
  decide

/-- C7 (amended): Or-combined into an all-zero bitmap, the bitwise inversion
of the GreaterThan scan agrees with the LessThanOrEqual scan on every bit
position corresponding to a real row (and likewise LessThan with
GreaterThanOrEqual and Equals with NotEquals); on full-chunk words — hence on
every word when the row count is a multiple of 64 — the inverted words are
equal outright. -/
theorem claim_C7_amended (sign : SigningN) (set : Nat → Nat) (length value : Nat) :
    (∀ i, i < length →
      Nat.testBit (Where .GreaterThan .Or sign set length value (fun _ => 0) (i / 64)
            ^^^ (2 ^ 64 - 1)) (i % 64)
          = Nat.testBit (Where .LessThanOrEqual .Or sign set length value (fun _ => 0)
              (i / 64)) (i % 64)
        ∧ Nat.testBit (Where .LessThan .Or sign set length value (fun _ => 0) (i / 64)
            ^^^ (2 ^ 64 - 1)) (i % 64)
          = Nat.testBit (Where .GreaterThanOrEqual .Or sign set length value (fun _ => 0)
              (i / 64)) (i % 64)
        ∧ Nat.testBit (Where .Equals .Or sign set length value (fun _ => 0) (i / 64)
            ^^^ (2 ^ 64 - 1)) (i % 64)
          = Nat.testBit (Where .NotEquals .Or sign set length value (fun _ => 0)
              (i / 64)) (i % 64))
    ∧ (length % 64 = 0 → ∀ w, w < length / 64 →
      Where .GreaterThan .Or sign set length value (fun _ => 0) w ^^^ (2 ^ 64 - 1)
          = Where .LessThanOrEqual .Or sign set length value (fun _ => 0) w
        ∧ Where .LessThan .Or sign set length value (fun _ => 0) w ^^^ (2 ^ 64 - 1)
          = Where .GreaterThanOrEqual .Or sign set length value (fun _ => 0) w
        ∧ Where .Equals .Or sign set length value (fun _ => 0) w ^^^ (2 ^ 64 - 1)
          = Where .NotEquals .Or sign set length value (fun _ => 0) w) := by
  constructor
  · intro i hi
    exact ⟨where_pair_bit .GreaterThan .LessThanOrEqual sign set length value
        (vecRowBit_le_not_gt sign) tailPred_le_not_gt i hi,
      where_pair_bit .LessThan .GreaterThanOrEqual sign set length value
        (vecRowBit_ge_not_lt sign) tailPred_ge_not_lt i hi,
      where_pair_bit .Equals .NotEquals sign set length value
        (vecRowBit_ne_not_eq sign) tailPred_ne_not_eq i hi⟩
  · intro hmod w hw
    exact ⟨where_pair_word .GreaterThan .LessThanOrEqual sign set length value
        (chunkWord_le_not_gt sign set value) w hw,
      where_pair_word .LessThan .GreaterThanOrEqual sign set length value
        (chunkWord_ge_not_lt sign set value) w hw,
      where_pair_word .Equals .NotEquals sign set length value
        (chunkWord_ne_not_eq sign set value) w hw⟩

/-- C7 witness: the amended claim applied at concrete inputs. -/
theorem claim_C7_witness :
    Nat.testBit (Where .GreaterThan .Or .Unsigned (fun _ => 7) 64 7 (fun _ => 0) (3 / 64)
        ^^^ (2 ^ 64 - 1)) (3 % 64) = true
    ∧ Where .GreaterThan .Or .Unsigned (fun _ => 7) 64 7 (fun _ => 0) 0 ^^^ (2 ^ 64 - 1)
        = Where .LessThanOrEqual .Or .Unsigned (fun _ => 7) 64 7 (fun _ => 0) 0 := by
  have h := claim_C7_amended .Unsigned (fun _ => 7) 64 7
  exact ⟨((h.1 3 (by decide)).1).trans (by decide), (h.2 (by decide) 0 (by decide)).1⟩

/-- C8: the scan never writes a bitmap word at or beyond `ceil(rowCount/64)`,
and when the row count is a multiple of 64 it writes no tail word at all
(every word from `rowCount/64` onward keeps its prior value). -/
theorem claim_C8 (cOp : CompareOperatorN) (bOp : BooleanOperatorN) (sign : SigningN)
    (set : Nat → Nat) (length value : Nat) (mv : Nat → Nat) :
    (∀ w, (length + 63) / 64 ≤ w → Where cOp bOp sign set length value mv w = mv w)
    ∧ (length % 64 = 0 →
      ∀ w, length / 64 ≤ w → Where cOp bOp sign set length value mv w = mv w) := by
  constructor
  · intro w hw
    exact Where_frame cOp bOp sign set length value mv w hw
  · intro hmod w hw
    exact Where_frame cOp bOp sign set length value mv w (by omega)

/-- C8 witness: the frame property applied at concrete inputs. -/
theorem claim_C8_witness :
    Where .Equals .Or .Unsigned (fun _ => 0) 65 0 (fun _ => 9) 2 = 9
    ∧ Where .Equals .Or .Unsigned (fun _ => 0) 64 0 (fun _ => 9) 1 = 9 :=
  ⟨(claim_C8 .Equals .Or .Unsigned (fun _ => 0) 65 0 (fun _ => 9)).1 2 (by decide),
    (claim_C8 .Equals .Or .Unsigned (fun _ => 0) 64 0 (fun _ => 9)).2 (by decide) 1 (by decide)⟩

/-- C9: `AndWhereGreaterThanInternal` has exactly the same effect on the
match vector as the generic `Where<GreaterThan, And, Unsigned>`
instantiation, for every buffer, row count, scalar value, and prior bitmap. -/
theorem claim_C9 (set : Nat → Nat) (length value : Nat) (mv : Nat → Nat) :
    AndWhereGreaterThanInternal set length value mv
      = Where .GreaterThan .And .Unsigned set length value mv :=
  internal_eq_whereGTAU set length value mv

/-- C10: the exported `CompareToVector` entry points ignore their `positive`
and `and` flags — any two calls differing only in those flags produce the
same bitmap — because each wrapper always invokes the fixed Unsigned,
And-combined instantiation of `Where` for its operator. -/
theorem claim_C10 (p1 a1 p2 a2 : Bool) (set : Nat → Nat) (length value : Nat)
    (mv : Nat → Nat) :
    (CompareToVector.WhereGreaterThan p1 a1 set length value mv
        = CompareToVector.WhereGreaterThan p2 a2 set length value mv
      ∧ CompareToVector.WhereLessThan p1 a1 set length value mv
        = CompareToVector.WhereLessThan p2 a2 set length value mv
      ∧ CompareToVector.WhereEquals p1 a1 set length value mv
        = CompareToVector.WhereEquals p2 a2 set length value mv)
    ∧ (CompareToVector.WhereGreaterThan p1 a1 set length value mv
        = Where .GreaterThan .And .Unsigned set length value mv
      ∧ CompareToVector.WhereLessThan p1 a1 set length value mv
        = Where .LessThan .And .Unsigned set length value mv
      ∧ CompareToVector.WhereEquals p1 a1 set length value mv
        = Where .Equals .And .Unsigned set length value mv) :=
  ⟨⟨rfl, rfl, rfl⟩, ⟨rfl, rfl, rfl⟩⟩
